import Mathlib

/-!
Shallow embedding of `src/oust.py` (hastilude): a party-game controller
manager that pairs motion controllers, runs a lobby, and plays a
"last player moving loses" elimination round.

Conventions of the embedding:
* Python floats are modelled as rationals (`ℚ`); Python `int(x)` is
  truncation toward zero (`pyInt`), and Python `%` on integers with a
  positive modulus is Euclidean remainder (`Int.emod`).
* Device serials are abstract identifiers, modelled as `ℕ`.
* Python dicts (which preserve insertion order, replace values in place,
  and append fresh keys at the end) are modelled as association lists
  `List (ℕ × α)` with `lookupA` / `insertA` below; the single dict
  deletion of the source (`del controllers_alive[serial]`) acts on the
  key list of the contestant set and is modelled with `List.erase`.
* Real-time busy-wait loops (`sleep_controllers`, the win animation and
  the reconnaissance of the wall clock) are modelled with an explicit
  iteration count; the wall-clock constants of the source are kept as
  data so statements can refer to them.
-/

namespace Oust

/-- Python `int(x)`: truncation toward zero. All uses in the source are on
non-negative values, where this is the floor. -/
def pyInt (q : ℚ) : ℤ := if 0 ≤ q then ⌊q⌋ else ⌈q⌉

/-- `hsv_to_rgb` from `src/oust.py` lines 25-34. The source falls through
(returning Python `None`) if no branch is taken, which we model with
`Option`; the index is reduced `% 6` (Python semantics: Euclidean mod)
before the six-way branch. `p`, `q`, `t` are `int(...)` in the source and
the returned `v` component is the float `255*v`. -/
def hsv_to_rgb (h s v : ℚ) : Option (List ℚ) :=
  if s = 0 then some [v * 255, v * 255, v * 255]
  else
    let i : ℤ := pyInt (h * 6)
    let f : ℚ := h * 6 - i
    let p : ℚ := (pyInt (255 * (v * (1 - s))) : ℤ)
    let q : ℚ := (pyInt (255 * (v * (1 - s * f))) : ℤ)
    let t : ℚ := (pyInt (255 * (v * (1 - s * (1 - f)))) : ℤ)
    let v' : ℚ := v * 255
    let i' : ℤ := i.emod 6
    if i' = 0 then some [v', t, p]
    else if i' = 1 then some [q, v', p]
    else if i' = 2 then some [p, v', t]
    else if i' = 3 then some [p, q, v']
    else if i' = 4 then some [t, p, v']
    else if i' = 5 then some [v', p, q]
    else none

/-- One colour of `colour_range` (`src/oust.py` line 42):
`[int(x) for x in hsv_to_rgb(*colour)]`. The `getD []` default is
unreachable because `hsv_to_rgb` is total (proved below). -/
def colourOf (h s v : ℚ) : List ℤ :=
  ((hsv_to_rgb h s v).getD []).map pyInt

/-- The hue list of `regenerate_colours` (`src/oust.py` line 41):
`[(x*1.0/len(moves), 1, 1) for x in range(len(moves))]`. Note the
partition count is the length of `moves` (the connected roster), whatever
that is at call time. -/
def paletteHues (M : ℕ) : List ℚ :=
  (List.range M).map (fun (x : ℕ) => (x : ℚ) / (M : ℚ))

/-- `colour_range` from `src/oust.py` line 42 (saturation 1, value 1). -/
def colour_range_of (M : ℕ) : List (List ℤ) :=
  (paletteHues M).map (fun hq => colourOf hq 1 1)

/-- `controller_colours` from `src/oust.py` line 43: the i-th device of the
roster gets the i-th colour. -/
def controller_colours_of (roster : List ℕ) : List (ℕ × List ℤ) :=
  roster.zip (colour_range_of roster.length)

/-- The hue assigned to each device of the roster (the HSV source of
`controller_colours`), for reasoning about hue spacing. -/
def controller_hues_of (roster : List ℕ) : List (ℕ × ℚ) :=
  roster.zip (paletteHues roster.length)

/-! ### Liveness tracker (`poll_move`, `src/oust.py` lines 11-22) -/

/-- One call of `poll_move` for a given device, as a function of that
device's current failure counter and the success of the underlying
`move.poll()`. Returns (new counter, returned bool, disconnect issued). -/
def pollStep (failures : ℕ) (success : Bool) : ℕ × Bool × Bool :=
  if success then (0, true, false)
  else
    let f := failures + 1
    (f, false, decide (1000 < f))

/-- A run of `k` consecutive failed polls starting from counter `c`:
returns the final counter and whether any call issued a disconnect. -/
def failRunFrom (c : ℕ) : ℕ → ℕ × Bool
  | 0 => (c, false)
  | k + 1 =>
    let r := pollStep c false
    let rest := failRunFrom r.1 k
    (rest.1, r.2.2 || rest.2)

/-! ### Motion classifier (`src/oust.py` lines 209-234) -/

/-- Per-device verdict of one sampling tick. -/
inductive Verdict where
  | NoSample
  | Alive
  | Warning
  | Eliminated
  deriving DecidableEq, Repr

/-- The three-way classification of `src/oust.py` lines 215-231:
`change = abs(baseline - total)`; `change > 0.7` is an elimination,
`change > 0.2` (elif) a warning, anything else alive. -/
def classifyD (baseline total : ℚ) : Verdict :=
  if 7/10 < |baseline - total| then .Eliminated
  else if 2/10 < |baseline - total| then .Warning
  else .Alive

/-- Full classifier contract including the no-baseline case
(`if serial in move_last_values`, line 214): with no stored baseline the
tick yields `NoSample`. -/
def classify (baseline : Option ℚ) (total : ℚ) : Verdict :=
  match baseline with
  | none => .NoSample
  | some b => classifyD b total

/-! ### Association lists standing in for Python dicts -/

/-- Lookup by key (first match; keys are unique in all reachable states). -/
def lookupA {α : Type} : List (ℕ × α) → ℕ → Option α
  | [], _ => none
  | p :: t, k => if p.1 = k then some p.2 else lookupA t k

/-- Python dict assignment: replace in place if the key exists, otherwise
append at the end (insertion order preserved). -/
def insertA {α : Type} : List (ℕ × α) → ℕ → α → List (ℕ × α)
  | [], k, v => [(k, v)]
  | p :: t, k, v => if p.1 = k then (k, v) :: t else p :: insertA t k v

/-! ### Lobby state machine (`src/oust.py` lines 59-144)

One lobby tick processes the roster rebuilt at line 65. Per device the
tick is driven by the observable inputs of that tick: whether the
USB/Bluetooth pairing branch fired (`fresh`, which ends the device's
processing for the tick via `continue`), whether `poll_move` succeeded,
and the trigger / button readings. The battery display colours and the
external disconnect command (SELECT, line 129) have no effect on the
join set and are not tracked beyond the `battery` flags. -/

/-- The per-tick observable inputs of one device in the lobby loop. -/
structure DevInput where
  serial : ℕ
  fresh : Bool
  pollOk : Bool
  trigger : ℕ
  buttons : ℕ
  deriving DecidableEq, Repr

/-- Lobby state across ticks: `controllers_alive` keys (insertion order),
the early-start flag (`start`, line 106) and the battery-display flag. -/
structure LobbyState where
  alive : List ℕ
  start : Bool
  battery : Bool
  deriving DecidableEq, Repr

/-- The body of the `for move in moves` loop, lines 66-130, restricted to
the state the claims are about. Accumulator: (alive, start, battery,
battery_pressed). A freshly paired device is skipped (`continue`); a
device that fails `poll_move` gets no further processing. -/
def lobbyDevFold (acc : List ℕ × Bool × Bool × Bool) (d : DevInput) :
    List ℕ × Bool × Bool × Bool :=
  if d.fresh then acc
  else if d.pollOk then
    let al := if d.serial ∈ acc.1 then acc.1
              else if 100 < d.trigger then acc.1 ++ [d.serial] else acc.1
    let st := if d.buttons = 2048 then true else acc.2.1
    let bat := if d.buttons = 32 then true else acc.2.2.1
    let bp := if d.buttons = 32 then true else acc.2.2.2
    (al, st, bat, bp)
  else acc

/-- The whole per-device pass of one lobby tick (battery_pressed reset at
line 64). -/
def lobbyFold (s : LobbyState) (devs : List DevInput) :
    List ℕ × Bool × Bool × Bool :=
  devs.foldl lobbyDevFold (s.alive, s.start, s.battery, false)

/-- One full lobby tick: the device pass, the battery-flag clearing of
lines 132-133, and the exit checks of lines 140-144. The exit compares
the SIZE of `controllers_alive` with the SIZE of the roster. -/
def lobbyTick (s : LobbyState) (devs : List DevInput) : LobbyState × Bool :=
  let r := lobbyFold s devs
  let bat := if r.2.2.1 = true ∧ r.2.2.2 = false then false else r.2.2.1
  let exited : Bool :=
    decide ((r.1.length = devs.length ∧ 0 < r.1.length) ∨
            (2 ≤ r.1.length ∧ r.2.1 = true))
  (⟨r.1, r.2.1, bat⟩, exited)

/-- Iterated lobby ticks (roster may change from tick to tick). -/
def lobbyRun (s : LobbyState) : List (List DevInput) → LobbyState
  | [] => s
  | devs :: rest => lobbyRun (lobbyTick s devs).1 rest

/-- Modelled from the spec words for claim comparison: the exit condition
as the specification states it, namely membership based: every currently
connected device has joined and at least one exists, or at least two have
joined and the early-start flag is set. -/
def lobbyExitSpecB (alive : List ℕ) (devs : List DevInput) (startFlag : Bool) :
    Bool :=
  (devs.all (fun d => decide (d.serial ∈ alive)) && !devs.isEmpty) ||
    (decide (2 ≤ alive.length) && startFlag)

/-! ### Round orchestrator (`src/oust.py` lines 146-249) -/

/-- Pending actuation per device: the last `set_leds` and `set_rumble`
values (`update_leds` commits the pending values to the device and is not
modelled separately). -/
structure Feedback where
  leds : List (ℕ × List ℤ)
  rumble : List (ℕ × ℕ)
  deriving DecidableEq, Repr

/-- The per-tick inputs of one contestant: `poll_move` outcome and the
accelerometer frame (second half) components. -/
structure MoveSample where
  pollOk : Bool
  ax : ℚ
  ay : ℚ
  az : ℚ
  deriving DecidableEq, Repr

/-- Round state: `controllers_alive` keys, `move_last_values`, the cached
roster `moves`, the `running` flag and pending feedback. -/
structure RoundState where
  contestants : List ℕ
  baselines : List (ℕ × ℚ)
  movesR : List ℕ
  running : Bool
  fb : Feedback
  deriving DecidableEq, Repr

/-- The dimmed warning colour, line 225: `int(v*0.3)` per component. -/
def scaleWarn (c : List ℤ) : List ℤ :=
  c.map (fun (v : ℤ) => pyInt ((v : ℚ) * (3/10)))

/-- Lines 209-234: one contestant's sampling step. On a successful poll
the sample components are summed, the verdict of `classify` drives the
feedback (elimination also removes the contestant), and the baseline is
overwritten with the new total in every verdict case. On a failed poll
nothing changes. Returns the verdict observed (`none` if the poll
failed). The `getD []` on the palette mirrors a dict access that cannot
fail for devices coloured at round start. -/
def contestantStep (palette : List (ℕ × List ℤ)) (inp : ℕ → MoveSample)
    (st : RoundState) (serial : ℕ) : RoundState × Option Verdict :=
  let m := inp serial
  if m.pollOk then
    let total := m.ax + m.ay + m.az
    let v := classify (lookupA st.baselines serial) total
    let st' :=
      match v with
      | .Eliminated =>
          { st with contestants := st.contestants.erase serial,
                    fb := ⟨insertA st.fb.leds serial [0, 0, 0],
                           insertA st.fb.rumble serial 100⟩ }
      | .Warning =>
          { st with fb := ⟨insertA st.fb.leds serial
                             (scaleWarn ((lookupA palette serial).getD [])),
                           st.fb.rumble⟩ }
      | .Alive =>
          { st with fb := ⟨insertA st.fb.leds serial
                             ((lookupA palette serial).getD []),
                           insertA st.fb.rumble serial 0⟩ }
      | .NoSample => st
    ({ st' with baselines := insertA st'.baselines serial total }, some v)
  else (st, none)

/-- Wall-clock constants of the win animation (lines 180 and 203): the
3-second deadline and the 0.01-second sleep per step. The number of steps
actually run depends on the wall clock and is an explicit parameter of
the model. -/
def winDurationSeconds : ℚ := 3

/-- The sleep between two win-animation steps, line 203. -/
def winStepSleepSeconds : ℚ := 1/100

/-- The 50-step rainbow palette of the win animation, lines 176-177:
hues x/50, saturation 0.9, value 1. -/
def rainbow50 : List (List ℤ) :=
  (List.range 50).map (fun (x : ℕ) => colourOf ((x : ℚ) / 50) (9/10) 1)

/-- `colour_range.append(colour_range.pop(0))`, line 195. -/
def rotate1 {α : Type} : List α → List α
  | [] => []
  | a :: t => t ++ [a]

/-- Set every listed device's pending leds to the same colour. -/
def setAllLeds (leds : List (ℕ × List ℤ)) (ms : List ℕ) (c : List ℤ) :
    List (ℕ × List ℤ) :=
  ms.foldl (fun l m => insertA l m c) leds

/-- Set every listed device's pending rumble to the same value. -/
def setAllRumble (r : List (ℕ × ℕ)) (ms : List ℕ) (v : ℕ) :
    List (ℕ × ℕ) :=
  ms.foldl (fun l m => insertA l m v) r

/-- The timed loop of the win animation (lines 188-203), for `k` steps:
each step shows the head of the rotating palette on the survivor with
rumble 100, rotates the palette, and sets rumble 100 on every known
device. Returns the final feedback, the rotated palette, and the list of
colours shown on the survivor, in order. -/
def winSteps (survivor : ℕ) (ms : List ℕ) :
    ℕ → Feedback → List (List ℤ) → Feedback × List (List ℤ) × List (List ℤ)
  | 0, fb, cr => (fb, cr, [])
  | k + 1, fb, cr =>
    let c := cr.headD []
    let fb1 : Feedback := ⟨insertA fb.leds survivor c,
                           insertA fb.rumble survivor 100⟩
    let cr1 := rotate1 cr
    let fb2 : Feedback := ⟨fb1.leds, setAllRumble fb1.rumble ms 100⟩
    let rest := winSteps survivor ms k fb2 cr1
    (rest.1, rest.2.1, c :: rest.2.2)

/-- The whole win branch body, lines 176-203: darken every known device
(lines 183-186), then run the timed rainbow/rumble loop. Returns final
feedback and the survivor's colour trace. -/
def winSequence (survivor : ℕ) (ms : List ℕ) (k : ℕ) (fb : Feedback) :
    Feedback × List (List ℤ) :=
  let fb0 : Feedback := ⟨setAllLeds fb.leds ms [0, 0, 0], fb.rumble⟩
  let r := winSteps survivor ms k fb0 rainbow50
  (r.1, r.2.2)

/-- The `for serial, move in list(controllers_alive.items())` loop, lines
170-234, over the snapshot taken at loop entry. At each iteration the win
check of line 173 fires when exactly one contestant remains: the win
branch runs (survivor is the first current item, line 179), `running` is
cleared, `controllers_alive` is emptied, and the loop breaks. Otherwise
the iteration is a sampling step. The second component counts win-branch
entries. -/
def roundPassGo (palette : List (ℕ × List ℤ)) (inp : ℕ → MoveSample)
    (k : ℕ) : List ℕ → RoundState → ℕ → RoundState × ℕ
  | [], st, w => (st, w)
  | s :: rest, st, w =>
    if st.contestants.length = 1 then
      let survivor := st.contestants.headD 0
      let r := winSequence survivor st.movesR k st.fb
      ({ st with fb := r.1, running := false, contestants := [] }, w + 1)
    else
      roundPassGo palette inp k rest (contestantStep palette inp st s).1 w

/-- One full per-contestant pass of the active loop. -/
def roundPass (palette : List (ℕ × List ℤ)) (inp : ℕ → MoveSample) (k : ℕ)
    (st : RoundState) : RoundState × ℕ :=
  roundPassGo palette inp k st.contestants st 0

/-- Lines 236-249 (under `if running:`): the cached roster is rebuilt only
when the transport's connected count differs from its length; on rebuild,
contestants whose serial is absent from the new roster are removed; the
round stops when the cached roster is empty. -/
def reconcile (st : RoundState) (transport : List ℕ) : RoundState :=
  let p := if transport.length ≠ st.movesR.length
           then (transport, st.contestants.filter (fun c => decide (c ∈ transport)))
           else (st.movesR, st.contestants)
  let running' := if p.1.length = 0 then false else st.running
  { st with contestants := p.2, movesR := p.1, running := running' }

/-- One iteration of `while running` (lines 169-249): the contestant pass
followed by the reconciliation block, which only runs while the round is
still running. -/
def roundTick (palette : List (ℕ × List ℤ)) (inp : ℕ → MoveSample) (k : ℕ)
    (st : RoundState) (transport : List ℕ) : RoundState × ℕ :=
  if st.running then
    let r := roundPass palette inp k st
    if r.1.running then (reconcile r.1 transport, r.2) else r
  else (st, 0)

/-! ### Round intro sequence (`sleep_controllers` and lines 151-164) -/

/-- The five fixed intro phases of lines 152-160, in order:
(duration seconds, led colour, rumble). -/
def introPhases : List (ℚ × (ℤ × ℤ × ℤ) × ℕ) :=
  [(1/2, (255, 255, 255), 0),
   (3/10, (255, 255, 255), 100),
   (3/4, (50, 0, 0), 0),
   (3/4, (50, 75, 0), 0),
   (3/4, (0, 50, 0), 0)]

/-- One sweep of the busy-poll body of `sleep_controllers` (lines 46-53):
every listed device is polled and gets the same pending leds and rumble.
The busy loop repeats this sweep until the deadline; the sweep is
idempotent on the modelled state, so one sweep captures any positive
number of repetitions. -/
def sleepControllers (leds : ℤ × ℤ × ℤ) (rumble : ℕ) (ms : List ℕ)
    (fb : Feedback) : Feedback :=
  ms.foldl
    (fun f m => ⟨insertA f.leds m [leds.1, leds.2.1, leds.2.2],
                 insertA f.rumble m rumble⟩) fb

/-- Feedback after the first `n` intro phases have run on the contestant
list. -/
def introAfterPhase (contestants : List ℕ) (fb : Feedback) (n : ℕ) :
    Feedback :=
  (introPhases.take n).foldl
    (fun f p => sleepControllers p.2.1 p.2.2 contestants f) fb

/-- Lines 163-164: each contestant's pending leds set to its own palette
colour (no rumble change). -/
def applyPalette (contestants : List ℕ) (palette : List (ℕ × List ℤ))
    (fb : Feedback) : Feedback :=
  contestants.foldl
    (fun f c => ⟨insertA f.leds c ((lookupA palette c).getD []), f.rumble⟩) fb

/-- The whole intro: the five phases then the individual colours. -/
def roundIntro (contestants : List ℕ) (palette : List (ℕ × List ℤ))
    (fb : Feedback) : Feedback :=
  applyPalette contestants palette
    (introAfterPhase contestants fb introPhases.length)

/-!
## Theorems

Helper lemmas first, then one theorem per claim (with witnesses and
counterexamples where required).
-/

theorem lookupA_insertA_self {α : Type} (l : List (ℕ × α)) (k : ℕ) (v : α) :
    lookupA (insertA l k v) k = some v := by
  induction l with
  | nil => simp [insertA, lookupA]
  | cons p t ih =>
    by_cases h : p.1 = k
    · simp [insertA, lookupA, h]
    · simp [insertA, lookupA, h, ih]

theorem lookupA_insertA_ne {α : Type} (l : List (ℕ × α)) (k k' : ℕ) (v : α)
    (h : k ≠ k') : lookupA (insertA l k v) k' = lookupA l k' := by
  induction l with
  | nil => simp [insertA, lookupA, h]
  | cons p t ih =>
    by_cases hp : p.1 = k
    · simp [insertA, lookupA, hp, h]
    · by_cases hp' : p.1 = k'
      · have h2 : k' ≠ k := Ne.symm h
        simp [insertA, lookupA, hp, hp', h2]
      · simp [insertA, lookupA, hp, hp', ih]

theorem classifyD_eq_iff (b t : ℚ) :
    (classifyD b t = .Eliminated ↔ 7/10 < |b - t|) ∧
    (classifyD b t = .Warning ↔ 2/10 < |b - t| ∧ |b - t| ≤ 7/10) ∧
    (classifyD b t = .Alive ↔ |b - t| ≤ 2/10) := by
  unfold classifyD
  split_ifs with h1 h2
  · refine ⟨by simp [h1], ?_, ?_⟩
    · simp only [reduceCtorEq, false_iff]
      rintro ⟨-, hle⟩; linarith
    · simp only [reduceCtorEq, false_iff]
      intro hle; linarith
  · refine ⟨?_, ?_, ?_⟩
    · simp only [reduceCtorEq, false_iff]; exact h1
    · simp only [true_iff]; exact ⟨h2, not_lt.mp h1⟩
    · simp only [reduceCtorEq, false_iff]
      intro hle; linarith
  · refine ⟨?_, ?_, ?_⟩
    · simp only [reduceCtorEq, false_iff]; exact h1
    · simp only [reduceCtorEq, false_iff]
      rintro ⟨hgt, -⟩; exact h2 hgt
    · simp only [true_iff]; exact not_lt.mp h2

/-- C1: the Motion Classifier is a pure function of the previous sample
sum (baseline) and the current sample sum (total): with
change = |baseline - total| it returns Eliminated exactly when
change > 0.7, Warning exactly when 0.2 < change ≤ 0.7, and Alive exactly
when change ≤ 0.2; in particular classifyD 1 1.9 = Eliminated,
classifyD 1 1.25 = Warning, classifyD 1 1.05 = Alive, and two calls with
identical inputs yield the same verdict. -/
theorem classify_thresholds :
    (∀ b t : ℚ,
      (classifyD b t = .Eliminated ↔ 7/10 < |b - t|) ∧
      (classifyD b t = .Warning ↔ 2/10 < |b - t| ∧ |b - t| ≤ 7/10) ∧
      (classifyD b t = .Alive ↔ |b - t| ≤ 2/10)) ∧
    classifyD 1 (19/10) = .Eliminated ∧
    classifyD 1 (5/4) = .Warning ∧
    classifyD 1 (21/20) = .Alive ∧
    (∀ b t b' t' : ℚ, b = b' → t = t' → classifyD b t = classifyD b' t') := by
  have habs1 : |(1 : ℚ) - 19/10| = 9/10 := by
    rw [show (1 : ℚ) - 19/10 = -(9/10) by norm_num, abs_neg,
      abs_of_nonneg (by norm_num : (0 : ℚ) ≤ 9/10)]
  have habs2 : |(1 : ℚ) - 5/4| = 1/4 := by
    rw [show (1 : ℚ) - 5/4 = -(1/4) by norm_num, abs_neg,
      abs_of_nonneg (by norm_num : (0 : ℚ) ≤ 1/4)]
  have habs3 : |(1 : ℚ) - 21/20| = 1/20 := by
    rw [show (1 : ℚ) - 21/20 = -(1/20) by norm_num, abs_neg,
      abs_of_nonneg (by norm_num : (0 : ℚ) ≤ 1/20)]
  refine ⟨classifyD_eq_iff, ?_, ?_, ?_, fun b t b' t' hb ht => by rw [hb, ht]⟩
  · exact (classifyD_eq_iff 1 (19/10)).1.mpr (by rw [habs1]; norm_num)
  · exact (classifyD_eq_iff 1 (5/4)).2.1.mpr
      (by rw [habs2]; constructor <;> norm_num)
  · exact (classifyD_eq_iff 1 (21/20)).2.2.mpr (by rw [habs3]; norm_num)

/-- C1 witness: the purity conjunct applied at a concrete input. -/
theorem classify_thresholds_witness :
    classifyD 1 (19/10) = classifyD 1 (19/10) ∧
    classifyD 1 (19/10) = .Eliminated :=
  ⟨classify_thresholds.2.2.2.2 1 (19/10) 1 (19/10) rfl rfl,
   classify_thresholds.2.1⟩

theorem failRunFrom_spec :
    ∀ (k c : ℕ), (failRunFrom c k).1 = c + k ∧
      ((failRunFrom c k).2 = true ↔ 0 < k ∧ 1000 < c + k) := by
  intro k
  induction k with
  | zero => intro c; simp [failRunFrom]
  | succ k ih =>
    intro c
    have h := ih (c + 1)
    have hd : failRunFrom c (k + 1)
        = ((failRunFrom (c + 1) k).1,
           decide (1000 < c + 1) || (failRunFrom (c + 1) k).2) := by
      simp [failRunFrom, pollStep]
    rw [hd]
    refine ⟨by rw [h.1]; omega, ?_⟩
    simp only [Bool.or_eq_true, decide_eq_true_iff, h.2]
    omega

/-- C3: `poll_move` resets the failure counter to 0 and returns true on a
successful poll; on failure it increments the counter, returns false and
issues the forced disconnect exactly when the counter exceeds 1000; a run
of exactly 1001 consecutive failures (from a fresh counter, no
intervening success) issues a disconnect while a run of 1000 does not. -/
theorem poll_liveness :
    (∀ f, pollStep f true = (0, true, false)) ∧
    (∀ f, (pollStep f false).1 = f + 1 ∧ (pollStep f false).2.1 = false ∧
      ((pollStep f false).2.2 = true ↔ 1000 < f + 1)) ∧
    (failRunFrom 0 1001).2 = true ∧
    (failRunFrom 0 1000).2 = false := by
  refine ⟨fun f => rfl, fun f => ⟨rfl, rfl, by simp [pollStep]⟩, ?_, ?_⟩
  · exact (failRunFrom_spec 1001 0).2.mpr ⟨by norm_num, by norm_num⟩
  · cases hb : (failRunFrom 0 1000).2 with
    | false => rfl
    | true =>
      exact absurd ((failRunFrom_spec 1000 0).2.mp hb).2 (by norm_num)

/-- C9: `hsv_to_rgb` never falls through: it always returns a 3-element
list (the s = 0 branch returns immediately, and otherwise the index is
reduced modulo 6 so exactly one of the six branches is taken). This holds
for all rational inputs, in particular on the intended domain
h, s, v ∈ [0, 1]. -/
theorem hsv_total :
    ∀ h s v : ℚ, ∃ l, hsv_to_rgb h s v = some l ∧ l.length = 3 := by
  intro h s v
  by_cases hs : s = 0
  · exact ⟨[v * 255, v * 255, v * 255], by simp [hsv_to_rgb, hs], rfl⟩
  · have h0 : 0 ≤ (pyInt (h * 6)).emod 6 := Int.emod_nonneg _ (by norm_num)
    have h6 : (pyInt (h * 6)).emod 6 < 6 := Int.emod_lt_of_pos _ (by norm_num)
    simp only [hsv_to_rgb, hs, if_false]
    generalize hg : (pyInt (h * 6)).emod 6 = j at h0 h6
    interval_cases j <;> exact ⟨_, rfl, rfl⟩

/-- C2: on every successfully sampled tick the stored baseline of the
device is overwritten with the new sample sum `total`, in every verdict
case (including elimination); on the first successful sample (no prior
baseline) the verdict is NoSample, the feedback is unchanged, and `total`
is recorded as baseline; on a failed poll nothing changes; and a step of
a different device never touches this device's baseline, so the next
delta is computed strictly against the immediately preceding successful
sample. -/
theorem baseline_overwrite :
    ∀ (palette : List (ℕ × List ℤ)) (inp : ℕ → MoveSample)
      (st : RoundState) (serial : ℕ),
      ((inp serial).pollOk = true →
        lookupA (contestantStep palette inp st serial).1.baselines serial
          = some ((inp serial).ax + (inp serial).ay + (inp serial).az)) ∧
      ((inp serial).pollOk = true → lookupA st.baselines serial = none →
        (contestantStep palette inp st serial).2 = some .NoSample ∧
        (contestantStep palette inp st serial).1.fb = st.fb) ∧
      ((inp serial).pollOk = false →
        contestantStep palette inp st serial = (st, none)) ∧
      (∀ other : ℕ, other ≠ serial →
        lookupA (contestantStep palette inp st other).1.baselines serial
          = lookupA st.baselines serial) := by
  intro palette inp st serial
  refine ⟨?_, ?_, ?_, ?_⟩
  · intro hp
    unfold contestantStep
    simp only [hp, if_true]
    cases hv : classify (lookupA st.baselines serial)
        ((inp serial).ax + (inp serial).ay + (inp serial).az) <;>
      simp [hv, lookupA_insertA_self]
  · intro hp hnone
    unfold contestantStep
    simp [hp, hnone, classify]
  · intro hp
    unfold contestantStep
    simp [hp]
  · intro other hne
    unfold contestantStep
    by_cases hp : (inp other).pollOk = true
    · simp only [hp, if_true]
      cases hv : classify (lookupA st.baselines other)
          ((inp other).ax + (inp other).ay + (inp other).az) <;>
        simp [hv, lookupA_insertA_ne _ _ _ _ hne]
    · simp [hp]

/-- C2 witness: a concrete successful first sample records the total. -/
theorem baseline_overwrite_witness :
    lookupA (contestantStep [] (fun _ => ⟨true, 1, 2, 3⟩)
        ⟨[7], [], [7], true, ⟨[], []⟩⟩ 7).1.baselines 7
      = some ((1 : ℚ) + 2 + 3) ∧
    (contestantStep [] (fun _ => ⟨true, 1, 2, 3⟩)
        ⟨[7], [], [7], true, ⟨[], []⟩⟩ 7).2 = some .NoSample :=
  ⟨(baseline_overwrite [] (fun _ => ⟨true, 1, 2, 3⟩)
      ⟨[7], [], [7], true, ⟨[], []⟩⟩ 7).1 rfl,
   ((baseline_overwrite [] (fun _ => ⟨true, 1, 2, 3⟩)
      ⟨[7], [], [7], true, ⟨[], []⟩⟩ 7).2.1 rfl rfl).1⟩

theorem lobbyDevFold_mem (acc : List ℕ × Bool × Bool × Bool) (d : DevInput)
    (x : ℕ) (hx : x ∈ acc.1) : x ∈ (lobbyDevFold acc d).1 := by
  unfold lobbyDevFold
  by_cases hf : d.fresh = true
  · simpa [hf] using hx
  · by_cases hp : d.pollOk = true
    · simp only [hf, hp, Bool.false_eq_true, if_false, if_true]
      split_ifs <;> simp [hx, List.mem_append]
    · simpa [hf, hp] using hx

theorem lobbyFold_mem :
    ∀ (devs : List DevInput) (acc : List ℕ × Bool × Bool × Bool) (x : ℕ),
      x ∈ acc.1 → x ∈ (devs.foldl lobbyDevFold acc).1 := by
  intro devs
  induction devs with
  | nil => intro acc x hx; simpa using hx
  | cons d t ih => intro acc x hx; exact ih _ x (lobbyDevFold_mem acc d x hx)

/-- C10: during the lobby phase the join set is monotone: a joined serial
survives any lobby tick (and any run of ticks), whatever the roster and
the inputs are; moreover a device whose poll fails leaves the whole
accumulator unchanged, and a polled device pressing SELECT (buttons 256)
with a released trigger leaves the join set unchanged — no lobby-phase
operation removes a joined device. -/
theorem lobby_join_monotone :
    (∀ (s : LobbyState) (devs : List DevInput) (x : ℕ),
      x ∈ s.alive → x ∈ (lobbyTick s devs).1.alive) ∧
    (∀ (s : LobbyState) (ticks : List (List DevInput)) (x : ℕ),
      x ∈ s.alive → x ∈ (lobbyRun s ticks).alive) ∧
    (∀ (acc : List ℕ × Bool × Bool × Bool) (n t b : ℕ),
      lobbyDevFold acc ⟨n, false, false, t, b⟩ = acc) ∧
    (∀ (acc : List ℕ × Bool × Bool × Bool) (n : ℕ),
      (lobbyDevFold acc ⟨n, false, true, 0, 256⟩).1 = acc.1) := by
  refine ⟨fun s devs x hx => lobbyFold_mem devs _ x hx, ?_, ?_, ?_⟩
  · intro s ticks
    induction ticks generalizing s with
    | nil => intro x hx; simpa [lobbyRun] using hx
    | cons devs rest ih =>
      intro x hx
      exact ih _ x (lobbyFold_mem devs _ x hx)
  · intro acc n t b; rfl
  · intro acc n
    unfold lobbyDevFold
    by_cases hmem : n ∈ acc.1 <;> simp [hmem]

/-- C10 witness: a concrete joined serial survives a tick in which its
device has vanished from the roster. -/
theorem lobby_join_monotone_witness :
    3 ∈ ([3] : List ℕ) ∧
    3 ∈ (lobbyTick ⟨[3], false, false⟩ [⟨9, false, true, 0, 0⟩]).1.alive :=
  ⟨by decide,
   lobby_join_monotone.1 ⟨[3], false, false⟩ [⟨9, false, true, 0, 0⟩] 3
     (by decide)⟩

theorem lobbyTick_exit_iff (s : LobbyState) (devs : List DevInput) :
    (lobbyTick s devs).2 = true ↔
      (((lobbyTick s devs).1.alive.length = devs.length ∧
        0 < (lobbyTick s devs).1.alive.length) ∨
       (2 ≤ (lobbyTick s devs).1.alive.length ∧
        (lobbyTick s devs).1.start = true)) := by
  show decide _ = true ↔ _
  rw [decide_eq_true_iff]
  exact Iff.rfl

/-- C5 counterexample: two lobby ticks. Tick 1: roster has devices 0 and
1, device 0 joins (trigger 200), device 1 does not; no exit. Before tick
2, device 0 disappears, so the rebuilt roster holds only device 1, which
still has not joined (trigger 0) and no early-start was pressed; the code
exits anyway, because the exit check compares sizes
(len(controllers_alive) == len(moves), 1 == 1) rather than checking that
every connected device has joined: the spec-worded condition is false in
that state. -/
theorem lobby_exit_cex :
    (lobbyTick ⟨[], false, false⟩
        [⟨0, false, true, 200, 0⟩, ⟨1, false, true, 0, 0⟩]).2 = false ∧
    (lobbyTick ⟨[], false, false⟩
        [⟨0, false, true, 200, 0⟩, ⟨1, false, true, 0, 0⟩]).1
      = ⟨[0], false, false⟩ ∧
    (lobbyTick ⟨[0], false, false⟩ [⟨1, false, true, 0, 0⟩]).2 = true ∧
    lobbyExitSpecB [0] [⟨1, false, true, 0, 0⟩] false = false := by decide

/-- C5 amended: the lobby exits on a given tick if and only if, after the
tick's device pass, the SIZE of the joined set equals the SIZE of the
roster (with at least one joined), or at least two have joined and the
early-start flag is set; the joined set is not compared with the roster
by membership. The claim's concrete scenario still holds: with joined set
{0, 1} and a third connected unjoined device and no early-start the lobby
does not exit, and once the third joins it exits. -/
theorem lobby_exit_amended :
    (∀ (s : LobbyState) (devs : List DevInput),
      (lobbyTick s devs).2 = true ↔
        (((lobbyTick s devs).1.alive.length = devs.length ∧
          0 < (lobbyTick s devs).1.alive.length) ∨
         (2 ≤ (lobbyTick s devs).1.alive.length ∧
          (lobbyTick s devs).1.start = true))) ∧
    (lobbyTick ⟨[0, 1], false, false⟩
        [⟨0, false, true, 200, 0⟩, ⟨1, false, true, 200, 0⟩,
         ⟨2, false, true, 0, 0⟩]).2 = false ∧
    (lobbyTick ⟨[0, 1], false, false⟩
        [⟨0, false, true, 200, 0⟩, ⟨1, false, true, 200, 0⟩,
         ⟨2, false, true, 200, 0⟩]).2 = true :=
  ⟨lobbyTick_exit_iff, by decide, by decide⟩

/-- C4 counterexample: a round start (via early-start, START pressed on
device 0) with exactly two joined contestants 0 and 1 while a third
device 2 is still connected: `regenerate_colours` partitions the hue
circle by the roster length 3, so contestant 1 receives hue 1/3 — not
one of the hues i/2 that the claim requires for N = 2 contestants. -/
theorem palette_hue_cex :
    (lobbyTick ⟨[], false, false⟩
        [⟨0, false, true, 200, 2048⟩, ⟨1, false, true, 200, 0⟩,
         ⟨2, false, true, 0, 0⟩]).2 = true ∧
    (lobbyTick ⟨[], false, false⟩
        [⟨0, false, true, 200, 2048⟩, ⟨1, false, true, 200, 0⟩,
         ⟨2, false, true, 0, 0⟩]).1.alive = [0, 1] ∧
    ([⟨0, false, true, 200, 2048⟩, ⟨1, false, true, 200, 0⟩,
      ⟨2, false, true, 0, 0⟩] : List DevInput).map DevInput.serial
      = [0, 1, 2] ∧
    lookupA (controller_hues_of [0, 1, 2]) 1 = some (1/3) ∧
    (1/3 : ℚ) ≠ (0 : ℚ)/2 ∧ (1/3 : ℚ) ≠ (1 : ℚ)/2 := by
  have hr : List.range 3 = [0, 1, 2] := rfl
  refine ⟨by decide, by decide, by decide, ?_, by norm_num, by norm_num⟩
  simp [controller_hues_of, paletteHues, hr, lookupA]

/-- C4 amended: the palette is generated once per round start by an even
hue partition over the ROSTER length M at that moment (the number of
connected devices), not over the contestant count: the i-th device of the
roster is assigned hue i/M. These hues are pairwise distinct. When the
round starts via the all-joined condition, the joined count equals the
roster length, so the partition count coincides with the contestant
count. -/
theorem palette_hues_amended :
    (∀ (roster : List ℕ) (i : ℕ) (hi : i < roster.length),
      (controller_hues_of roster)[i]? =
        some (roster.get ⟨i, hi⟩, (i : ℚ) / (roster.length : ℚ))) ∧
    (∀ (M i j : ℕ), i < M → j < M →
      (i : ℚ) / (M : ℚ) = (j : ℚ) / (M : ℚ) → i = j) ∧
    (∀ (s : LobbyState) (devs : List DevInput),
      (lobbyTick s devs).1.alive.length = devs.length →
      0 < (lobbyTick s devs).1.alive.length →
      (lobbyTick s devs).2 = true) := by
  refine ⟨?_, ?_, ?_⟩
  · intro roster i hi
    have h1 : roster[i]? = some (roster.get ⟨i, hi⟩) := by
      simp [List.getElem?_eq_getElem hi]
    have h2 : (paletteHues roster.length)[i]? =
        some ((i : ℚ) / (roster.length : ℚ)) := by
      rw [paletteHues, List.getElem?_map, List.getElem?_range hi,
        Option.map_some']
    rw [controller_hues_of, List.getElem?_zip_eq_some]
    exact ⟨h1, h2⟩
  · intro M i j hi hj h
    have hM : (M : ℚ) ≠ 0 := Nat.cast_ne_zero.mpr (by omega)
    field_simp at h
    exact_mod_cast h
  · intro s devs h1 h2
    rw [lobbyTick_exit_iff]
    exact Or.inl ⟨h1, h2⟩

/-- C4 witness: the second device of a 2-device roster gets hue 1/2, and
a concrete all-joined tick exits. -/
theorem palette_hues_amended_witness :
    (controller_hues_of [4, 5])[1]? = some (5, (1 : ℚ)/2) ∧
    (lobbyTick ⟨[0], false, false⟩ [⟨0, false, true, 200, 0⟩]).2 = true :=
  ⟨by simpa using palette_hues_amended.1 [4, 5] 1 (by norm_num),
   palette_hues_amended.2.2 ⟨[0], false, false⟩ [⟨0, false, true, 200, 0⟩]
     (by decide) (by decide)⟩

theorem reconcile_contestants (st : RoundState) (tr : List ℕ) :
    (reconcile st tr).contestants =
      if tr.length ≠ st.movesR.length then
        st.contestants.filter (fun c => decide (c ∈ tr))
      else st.contestants := by
  unfold reconcile
  by_cases hc : tr.length ≠ st.movesR.length <;> simp [hc]

theorem reconcile_movesR (st : RoundState) (tr : List ℕ) :
    (reconcile st tr).movesR =
      if tr.length ≠ st.movesR.length then tr else st.movesR := by
  unfold reconcile
  by_cases hc : tr.length ≠ st.movesR.length <;> simp [hc]

theorem reconcile_running (st : RoundState) (tr : List ℕ) :
    (reconcile st tr).running =
      if (reconcile st tr).movesR.length = 0 then false else st.running := by
  unfold reconcile
  by_cases hc : tr.length ≠ st.movesR.length <;> simp [hc]

theorem reconcile_baselines (st : RoundState) (tr : List ℕ) :
    (reconcile st tr).baselines = st.baselines := by
  unfold reconcile
  by_cases hc : tr.length ≠ st.movesR.length <;> simp [hc]

theorem reconcile_fb (st : RoundState) (tr : List ℕ) :
    (reconcile st tr).fb = st.fb := by
  unfold reconcile
  by_cases hc : tr.length ≠ st.movesR.length <;> simp [hc]

/-- C6 counterexample: mid-round, contestant 2 has disconnected while a
new device 3 appeared, keeping the transport count equal to the cached
roster length (2 = 2): the reconciliation of lines 236-245 is skipped
entirely, so contestant 2 — no longer among the connected devices — is
NOT removed after the pass (both contestants fail their poll this tick,
so the pass itself changes nothing). -/
theorem reconcile_cex :
    roundTick [] (fun _ => ⟨false, 0, 0, 0⟩) 0
        ⟨[1, 2], [], [1, 2], true, ⟨[], []⟩⟩ [1, 3]
      = (⟨[1, 2], [], [1, 2], true, ⟨[], []⟩⟩, 0) ∧
    (2 : ℕ) ∈ ([1, 2] : List ℕ) ∧ (2 : ℕ) ∉ ([1, 3] : List ℕ) := by decide

/-- C6 amended: after the per-contestant pass, the contestant set is
reconciled against a re-enumeration of the transport ONLY on ticks where
the transport's connected count differs from the cached roster length;
when that happens every contestant absent from the new roster is removed
(and in particular an empty transport empties the contestant set); the
round ends (running cleared) exactly when the cached roster after this
step is empty. A contestant set that is empty while the cached roster is
non-empty and the count unchanged does NOT end the round: the loop idles
unchanged. -/
theorem round_reconcile_amended :
    (∀ (st : RoundState) (tr : List ℕ), st.running = true →
      tr.length ≠ st.movesR.length →
        (reconcile st tr).contestants
          = st.contestants.filter (fun c => decide (c ∈ tr)) ∧
        (reconcile st tr).movesR = tr) ∧
    (∀ (st : RoundState) (tr : List ℕ), st.running = true →
      tr.length = st.movesR.length →
        (reconcile st tr).contestants = st.contestants ∧
        (reconcile st tr).movesR = st.movesR) ∧
    (∀ (st : RoundState) (tr : List ℕ), st.running = true →
      ((reconcile st tr).running = false ↔ (reconcile st tr).movesR = [])) ∧
    (∀ (st : RoundState) (tr : List ℕ), st.running = true → tr = [] →
      st.movesR ≠ [] →
        (reconcile st tr).contestants = [] ∧
        (reconcile st tr).running = false) ∧
    (∀ (palette : List (ℕ × List ℤ)) (inp : ℕ → MoveSample) (k : ℕ)
        (st : RoundState) (tr : List ℕ),
      st.running = true → st.contestants = [] →
      tr.length = st.movesR.length → st.movesR ≠ [] →
        roundTick palette inp k st tr = (st, 0)) := by
  refine ⟨?_, ?_, ?_, ?_, ?_⟩
  · intro st tr _ hne
    rw [reconcile_contestants, reconcile_movesR]
    simp [hne]
  · intro st tr _ heq
    rw [reconcile_contestants, reconcile_movesR]
    simp [heq]
  · intro st tr hrun
    rw [reconcile_running, hrun]
    by_cases h0 : (reconcile st tr).movesR.length = 0
    · simp [h0, List.length_eq_zero.mp h0]
    · simp only [h0, if_false]
      constructor
      · intro hfalse; exact absurd hfalse (by simp)
      · intro hnil; exact absurd (by simp [hnil] : (reconcile st tr).movesR.length = 0) h0
  · intro st tr hrun htr hm
    have h0 : (0 : ℕ) ≠ st.movesR.length := by
      intro h
      exact hm (List.length_eq_zero.mp h.symm)
    have hc : tr.length ≠ st.movesR.length := by
      rw [htr]
      exact h0
    constructor
    · rw [reconcile_contestants]
      simp [hc, htr, h0]
    · rw [reconcile_running, reconcile_movesR]
      simp [hc, htr, h0]
  · intro palette inp k st tr hrun hc htr hm
    have hpass : roundPass palette inp k st = (st, 0) := by
      unfold roundPass
      rw [hc]
      rfl
    have h0 : ¬ st.movesR.length = 0 := fun h => hm (List.length_eq_zero.mp h)
    have hc2 : ¬ tr.length ≠ st.movesR.length := by simp [htr]
    have hrec : reconcile st tr = st := by
      unfold reconcile
      simp only [hc2, if_false, h0, if_neg]
    unfold roundTick
    rw [hrun, if_pos rfl, hpass]
    simp only [hrun, if_true]
    rw [hrec]

/-- C6 witness: a concrete count-changing reconciliation filters the
contestant set to the connected devices. -/
theorem round_reconcile_amended_witness :
    (reconcile ⟨[1, 2], [], [1, 4], true, ⟨[], []⟩⟩ [2]).contestants
      = ([1, 2] : List ℕ).filter (fun c => decide (c ∈ ([2] : List ℕ))) ∧
    (reconcile ⟨[1, 2], [], [1, 4], true, ⟨[], []⟩⟩ [2]).movesR = [2] :=
  round_reconcile_amended.1 ⟨[1, 2], [], [1, 4], true, ⟨[], []⟩⟩ [2] rfl
    (by decide)

theorem lookupA_setAll_not_mem {α : Type} (c : α) (ms : List ℕ) :
    ∀ (r : List (ℕ × α)) (m : ℕ), m ∉ ms →
      lookupA (ms.foldl (fun l x => insertA l x c) r) m = lookupA r m := by
  induction ms with
  | nil => intro r m _; rfl
  | cons x t ih =>
    intro r m hm
    have hx : x ≠ m := fun h => hm (by simp [h])
    have ht : m ∉ t := fun h => hm (by simp [h])
    show lookupA (t.foldl (fun l x => insertA l x c) (insertA r x c)) m
      = lookupA r m
    rw [ih _ m ht, lookupA_insertA_ne _ _ _ _ hx]

theorem lookupA_setAll_mem {α : Type} (c : α) (ms : List ℕ) :
    ∀ (r : List (ℕ × α)) (m : ℕ), m ∈ ms →
      lookupA (ms.foldl (fun l x => insertA l x c) r) m = some c := by
  induction ms with
  | nil => intro r m hm; simp at hm
  | cons x t ih =>
    intro r m hm
    show lookupA (t.foldl (fun l x => insertA l x c) (insertA r x c)) m
      = some c
    by_cases ht : m ∈ t
    · exact ih _ m ht
    · have hx : m = x := by
        rcases List.mem_cons.mp hm with h | h
        · exact h
        · exact absurd h ht
      subst hx
      rw [lookupA_setAll_not_mem c t _ m ht, lookupA_insertA_self]

theorem setAllLeds_mem (leds : List (ℕ × List ℤ)) (ms : List ℕ)
    (c : List ℤ) (m : ℕ) (hm : m ∈ ms) :
    lookupA (setAllLeds leds ms c) m = some c :=
  lookupA_setAll_mem c ms leds m hm

theorem setAllRumble_mem (r : List (ℕ × ℕ)) (ms : List ℕ) (v m : ℕ)
    (hm : m ∈ ms) : lookupA (setAllRumble r ms v) m = some v :=
  lookupA_setAll_mem v ms r m hm

theorem setAllRumble_not_mem (r : List (ℕ × ℕ)) (ms : List ℕ) (v m : ℕ)
    (hm : m ∉ ms) : lookupA (setAllRumble r ms v) m = lookupA r m :=
  lookupA_setAll_not_mem v ms r m hm

theorem winSteps_leds_other (s : ℕ) (ms : List ℕ) :
    ∀ (k : ℕ) (fb : Feedback) (cr : List (List ℤ)) (m : ℕ), m ≠ s →
      lookupA (winSteps s ms k fb cr).1.leds m = lookupA fb.leds m := by
  intro k
  induction k with
  | zero => intro fb cr m _; rfl
  | succ k ih =>
    intro fb cr m hm
    have hstep : (winSteps s ms (k + 1) fb cr).1
        = (winSteps s ms k
            ⟨insertA fb.leds s (cr.headD []),
             setAllRumble (insertA fb.rumble s 100) ms 100⟩
            (rotate1 cr)).1 := rfl
    rw [hstep, ih]
    · exact lookupA_insertA_ne _ _ _ _ (Ne.symm hm)
    · exact hm

theorem winSteps_rumble_all (s : ℕ) (ms : List ℕ) :
    ∀ (k : ℕ) (fb : Feedback) (cr : List (List ℤ)) (m : ℕ), 0 < k →
      (m ∈ ms ∨ m = s) →
      lookupA (winSteps s ms k fb cr).1.rumble m = some 100 := by
  intro k
  induction k with
  | zero => intro fb cr m h _; omega
  | succ k ih =>
    intro fb cr m _ hm
    cases k with
    | zero =>
      show lookupA (setAllRumble (insertA fb.rumble s 100) ms 100) m
        = some 100
      rcases hm with hmem | rfl
      · exact setAllRumble_mem _ ms 100 m hmem
      · by_cases hs : m ∈ ms
        · exact setAllRumble_mem _ ms 100 m hs
        · rw [setAllRumble_not_mem _ ms 100 m hs, lookupA_insertA_self]
    | succ k2 =>
      have hstep : (winSteps s ms (k2 + 1 + 1) fb cr).1
          = (winSteps s ms (k2 + 1)
              ⟨insertA fb.leds s (cr.headD []),
               setAllRumble (insertA fb.rumble s 100) ms 100⟩
              (rotate1 cr)).1 := rfl
      rw [hstep]
      exact ih _ _ m (by omega) hm

theorem winSteps_trace_get (s : ℕ) (ms : List ℕ) :
    ∀ (k : ℕ) (fb : Feedback) (cr : List (List ℤ)) (j : ℕ), j < k →
      (winSteps s ms k fb cr).2.2[j]?
        = some ((rotate1^[j] cr).headD []) := by
  intro k
  induction k with
  | zero => intro fb cr j hj; omega
  | succ k ih =>
    intro fb cr j hj
    have hd : (winSteps s ms (k + 1) fb cr).2.2
        = cr.headD [] ::
          (winSteps s ms k
            ⟨insertA fb.leds s (cr.headD []),
             setAllRumble (insertA fb.rumble s 100) ms 100⟩
            (rotate1 cr)).2.2 := rfl
    rw [hd]
    cases j with
    | zero => simp
    | succ j =>
      simp only [List.getElem?_cons_succ]
      rw [ih _ _ j (by omega), Function.iterate_succ_apply]

theorem rotate1_iterate {α : Type} :
    ∀ (j : ℕ) (l : List α), rotate1^[j] l = l.rotate j := by
  intro j
  induction j with
  | zero => intro l; simp
  | succ j ih =>
    intro l
    rw [Function.iterate_succ_apply, ih (rotate1 l)]
    cases l with
    | nil => simp [rotate1]
    | cons a t =>
      show (t ++ [a]).rotate j = (a :: t).rotate (j + 1)
      exact (List.rotate_cons_succ t a j).symm

theorem headD_eq_getD_head {α : Type} (l : List α) (d : α) :
    l.headD d = l.head?.getD d := by
  cases l <;> rfl

theorem rainbow50_length : rainbow50.length = 50 := by
  simp [rainbow50]

/-- C7: when a pass of the active loop starts with exactly one contestant,
the win branch runs exactly once: the pass immediately returns with the
win counter at 1, `running` cleared and the contestant set emptied, the
feedback being that of the win sequence; in the win sequence every
non-contestant known device is forced dark, every known device (and the
survivor) buzzes at 100 once at least one timed step ran, and the
survivor's shown colours cycle through the 50-step rainbow palette
(trace position j shows rainbow colour j mod 50); the deadline and step
sleep constants are 3 seconds and 0.01 seconds; and once `running` is
false the round loop does nothing more (control is back at the lobby). -/
theorem win_sequence_once :
    (rainbow50.length = 50 ∧ winDurationSeconds = 3 ∧
      winStepSleepSeconds = 1/100) ∧
    (∀ (palette : List (ℕ × List ℤ)) (inp : ℕ → MoveSample) (k : ℕ)
        (st : RoundState) (s : ℕ),
      st.contestants = [s] →
        roundPass palette inp k st
          = ({ st with
                fb := (winSequence s st.movesR k st.fb).1,
                running := false, contestants := [] }, 1)) ∧
    (∀ (s : ℕ) (ms : List ℕ) (k : ℕ) (fb : Feedback) (m : ℕ),
      m ∈ ms → m ≠ s →
        lookupA (winSequence s ms k fb).1.leds m = some [0, 0, 0]) ∧
    (∀ (s : ℕ) (ms : List ℕ) (k : ℕ) (fb : Feedback) (m : ℕ),
      0 < k → (m ∈ ms ∨ m = s) →
        lookupA (winSequence s ms k fb).1.rumble m = some 100) ∧
    (∀ (s : ℕ) (ms : List ℕ) (k : ℕ) (fb : Feedback) (j : ℕ), j < k →
      (winSequence s ms k fb).2[j]? = rainbow50[j % 50]?) ∧
    (∀ (palette : List (ℕ × List ℤ)) (inp : ℕ → MoveSample) (k : ℕ)
        (st : RoundState) (tr : List ℕ), st.running = false →
      roundTick palette inp k st tr = (st, 0)) := by
  refine ⟨⟨rainbow50_length, rfl, rfl⟩, ?_, ?_, ?_, ?_, ?_⟩
  · intro palette inp k st s h
    simp [roundPass, roundPassGo, h]
  · intro s ms k fb m hmem hne
    show lookupA (winSteps s ms k
        ⟨setAllLeds fb.leds ms [0, 0, 0], fb.rumble⟩ rainbow50).1.leds m
      = some [0, 0, 0]
    rw [winSteps_leds_other s ms k _ rainbow50 m hne]
    exact setAllLeds_mem fb.leds ms [0, 0, 0] m hmem
  · intro s ms k fb m hk hm
    exact winSteps_rumble_all s ms k _ rainbow50 m hk hm
  · intro s ms k fb j hj
    show (winSteps s ms k
        ⟨setAllLeds fb.leds ms [0, 0, 0], fb.rumble⟩ rainbow50).2.2[j]?
      = rainbow50[j % 50]?
    rw [winSteps_trace_get s ms k _ rainbow50 j hj, rotate1_iterate]
    have hmod : j % 50 < rainbow50.length := by
      rw [rainbow50_length]
      exact Nat.mod_lt _ (by norm_num)
    have hrot : rainbow50.rotate j = rainbow50.rotate (j % 50) := by
      conv_lhs => rw [← List.rotate_mod]
      rw [rainbow50_length]
    rw [hrot, headD_eq_getD_head,
      List.head?_rotate (by rw [rainbow50_length]; exact Nat.mod_lt _ (by norm_num))]
    obtain ⟨c, hc⟩ : ∃ c, rainbow50[j % 50]? = some c :=
      ⟨_, List.getElem?_eq_getElem hmod⟩
    rw [hc]
    rfl
  · intro palette inp k st tr hrf
    unfold roundTick
    rw [hrf]
    rfl

/-- C7 witness: a concrete one-contestant pass triggers the win branch
once, and a concrete non-contestant device is forced dark. -/
theorem win_sequence_once_witness :
    roundPass [] (fun _ => ⟨false, 0, 0, 0⟩) 1
        ⟨[5], [], [5, 9], true, ⟨[], []⟩⟩
      = ({ contestants := [], baselines := [], movesR := [5, 9],
           running := false,
           fb := (winSequence 5 [5, 9] 1 ⟨[], []⟩).1 }, 1) ∧
    lookupA (winSequence 5 [5, 9] 1 ⟨[], []⟩).1.leds 9 = some [0, 0, 0] :=
  ⟨win_sequence_once.2.1 [] (fun _ => ⟨false, 0, 0, 0⟩) 1
     ⟨[5], [], [5, 9], true, ⟨[], []⟩⟩ 5 rfl,
   win_sequence_once.2.2.1 5 [5, 9] 1 ⟨[], []⟩ 9 (by decide) (by decide)⟩

theorem sleepControllers_fields (leds : ℤ × ℤ × ℤ) (rumble : ℕ) :
    ∀ (ms : List ℕ) (fb : Feedback),
      sleepControllers leds rumble ms fb
        = ⟨setAllLeds fb.leds ms [leds.1, leds.2.1, leds.2.2],
           setAllRumble fb.rumble ms rumble⟩ := by
  intro ms
  induction ms with
  | nil => intro fb; rfl
  | cons x t ih =>
    intro fb
    show sleepControllers leds rumble t
        ⟨insertA fb.leds x [leds.1, leds.2.1, leds.2.2],
         insertA fb.rumble x rumble⟩ = _
    rw [ih]
    rfl

theorem applyPalette_leds_not_mem (pal : List (ℕ × List ℤ)) :
    ∀ (cs : List ℕ) (fb : Feedback) (m : ℕ), m ∉ cs →
      lookupA (applyPalette cs pal fb).leds m = lookupA fb.leds m := by
  intro cs
  induction cs with
  | nil => intro fb m _; rfl
  | cons c t ih =>
    intro fb m hm
    have hc : c ≠ m := fun h => hm (by simp [h])
    have ht : m ∉ t := fun h => hm (by simp [h])
    show lookupA (applyPalette t pal
        ⟨insertA fb.leds c ((lookupA pal c).getD []), fb.rumble⟩).leds m
      = lookupA fb.leds m
    rw [ih _ m ht]
    exact lookupA_insertA_ne _ _ _ _ hc

theorem applyPalette_leds_mem (pal : List (ℕ × List ℤ)) :
    ∀ (cs : List ℕ) (fb : Feedback) (m : ℕ), m ∈ cs →
      lookupA (applyPalette cs pal fb).leds m
        = some ((lookupA pal m).getD []) := by
  intro cs
  induction cs with
  | nil => intro fb m hm; simp at hm
  | cons c t ih =>
    intro fb m hm
    show lookupA (applyPalette t pal
        ⟨insertA fb.leds c ((lookupA pal c).getD []), fb.rumble⟩).leds m
      = some ((lookupA pal m).getD [])
    by_cases ht : m ∈ t
    · exact ih _ m ht
    · have hx : m = c := by
        rcases List.mem_cons.mp hm with h | h
        · exact h
        · exact absurd h ht
      subst hx
      rw [applyPalette_leds_not_mem pal t _ m ht, lookupA_insertA_self]

/-- C8: the round intro drives the contestants through exactly the five
blocking phases, in order: 0.5 s white without buzz, 0.3 s white with
buzz 100, 0.75 s dark red, 0.75 s dim yellow, 0.75 s dim green (each
phase busy-polls all contestants with its single leds+buzz
configuration: at the end of phase n every contestant carries exactly
that configuration), and immediately afterwards every contestant is set
to its own assigned palette colour. -/
theorem intro_sequence :
    introPhases = [(1/2, (255, 255, 255), 0), (3/10, (255, 255, 255), 100),
      (3/4, (50, 0, 0), 0), (3/4, (50, 75, 0), 0), (3/4, (0, 50, 0), 0)] ∧
    (∀ (cs : List ℕ) (fb : Feedback) (n : ℕ) (ph : ℚ × (ℤ × ℤ × ℤ) × ℕ),
      introPhases[n]? = some ph → ∀ m ∈ cs,
        lookupA (introAfterPhase cs fb (n + 1)).leds m
          = some [ph.2.1.1, ph.2.1.2.1, ph.2.1.2.2] ∧
        lookupA (introAfterPhase cs fb (n + 1)).rumble m = some ph.2.2) ∧
    (∀ (cs : List ℕ) (palette : List (ℕ × List ℤ)) (fb : Feedback) (m : ℕ),
      m ∈ cs →
        lookupA (roundIntro cs palette fb).leds m
          = some ((lookupA palette m).getD [])) := by
  refine ⟨rfl, ?_, ?_⟩
  · intro cs fb n ph hn m hm
    have hstep : introAfterPhase cs fb (n + 1)
        = sleepControllers ph.2.1 ph.2.2 cs (introAfterPhase cs fb n) := by
      unfold introAfterPhase
      rw [List.take_succ, hn]
      simp [List.foldl_append]
    rw [hstep, sleepControllers_fields]
    exact ⟨setAllLeds_mem _ cs _ m hm, setAllRumble_mem _ cs _ m hm⟩
  · intro cs palette fb m hm
    unfold roundIntro
    exact applyPalette_leds_mem palette cs _ m hm

/-- C8 witness: after the first phase both contestants show white with no
buzz, and after the full intro a contestant shows its palette colour. -/
theorem intro_sequence_witness :
    lookupA (introAfterPhase [1, 2] ⟨[], []⟩ 1).leds 1
      = some [255, 255, 255] ∧
    lookupA (introAfterPhase [1, 2] ⟨[], []⟩ 1).rumble 1 = some 0 ∧
    lookupA (roundIntro [1, 2] [(1, [9, 9, 9])] ⟨[], []⟩).leds 1
      = some ((lookupA [(1, [9, 9, 9])] 1).getD []) :=
  ⟨(intro_sequence.2.1 [1, 2] ⟨[], []⟩ 0 (1/2, (255, 255, 255), 0) rfl 1
      (by decide)).1,
   (intro_sequence.2.1 [1, 2] ⟨[], []⟩ 0 (1/2, (255, 255, 255), 0) rfl 1
      (by decide)).2,
   intro_sequence.2.2 [1, 2] [(1, [9, 9, 9])] ⟨[], []⟩ 1 (by decide)⟩

end Oust
